import Mathlib

/-!
Shallow embedding of the instagram-downloader-api repository.

The repository contains three server variants:
 - `src/server.js`       — the "memory" variant, embedded in namespace `Memory`;
 - `src/unnamed/part_001` — the "fallback" variant (status column, async initDB),
                            embedded in namespace `Fallback`;
 - `src/unnamed/part_000` — the "rich" variant (sessions, preferences, audit log),
                            embedded in namespace `Rich`.

Database tables are modeled as Lean lists of row structures, timestamps as `Nat`
(`CURRENT_TIMESTAMP` / `Date.now()` is passed in as an explicit `now` argument),
and the outbound fetch of the Extractor as an oracle argument
`extract : String → Except String _`.  Fallible Store statements (the
`UPDATE ... last_accessed` touch, the upsert) are given explicit success flags,
reflecting the `try`/`catch` blocks wrapping them in the source; a `false` flag
means that statement threw.  `pool === null` and `dbConnected === false` are
collapsed into a single `dbConnected : Bool` where a variant guards on
`!dbConnected || !pool` (in the source `dbConnected = true` implies the pool
exists).  Handlers additionally report how many Store statements they issued
(`storeQueries`) and how many times they invoked the Extractor
(`extractorCalls`), so that spec sentences about calls that must *not* happen
are statable.
-/

namespace IgDl

/-- Whether the second character list occurs at the head of the first. -/
def startsWith : List Char → List Char → Bool
  | _, [] => true
  | [], _ :: _ => false
  | c :: cs, d :: ds => c == d && startsWith cs ds

/-- Whether the second character list occurs contiguously anywhere in the
first. -/
def containsSeq : List Char → List Char → Bool
  | [], sub => sub.isEmpty
  | l@(_ :: cs), sub => startsWith l sub || containsSeq cs sub

/-- Embeds JavaScript `String.prototype.includes` for non-empty needles:
`s.includes(sub)` holds iff `sub` occurs as a contiguous substring of `s`. -/
def jsIncludes (s sub : String) : Bool := containsSeq s.toList sub.toList

/-- The characters JavaScript trims before parsing a number (the
StrWhiteSpace production): space, tab, line feed, vertical tab, form feed,
carriage return, NBSP, the Unicode space separators (U+1680, U+2000–U+200A,
U+202F, U+205F, U+3000), the line separators U+2028/U+2029, and ZWNBSP. -/
def jsWhitespace (c : Char) : Bool :=
  c == ' ' || c == '\t' || c == '\n' || c.toNat == 11 || c.toNat == 12 ||
  c == '\r' || c.toNat == 160 || c.toNat == 5760 ||
  (8192 ≤ c.toNat && c.toNat ≤ 8202) || c.toNat == 8232 || c.toNat == 8233 ||
  c.toNat == 8239 || c.toNat == 8287 || c.toNat == 12288 || c.toNat == 65279

/-- Digits at the front of a character list, as a number; `none` when the list
does not start with a digit (the `NaN` case of JavaScript `parseInt`). -/
def leadingDigits (l : List Char) : Option Nat :=
  let ds := l.takeWhile (fun c => c.isDigit)
  if ds.isEmpty then none
  else some (ds.foldl (fun a c => a * 10 + (c.toNat - 48)) 0)

/-- Value of a hexadecimal digit; `none` for any other character. -/
def hexDigitVal (c : Char) : Option Nat :=
  if '0' ≤ c && c ≤ '9' then some (c.toNat - 48)
  else if 'a' ≤ c && c ≤ 'f' then some (c.toNat - 87)
  else if 'A' ≤ c && c ≤ 'F' then some (c.toNat - 55)
  else none

/-- Hexadecimal digits at the front of a character list, as a number; `none`
when the list does not start with a hex digit (so a bare `0x` prefix with no
digits after it is `NaN`, as in JavaScript). -/
def leadingHexDigits (l : List Char) : Option Nat :=
  let ds := l.takeWhile (fun c => (hexDigitVal c).isSome)
  if ds.isEmpty then none
  else some (ds.foldl (fun a c => a * 16 + (hexDigitVal c).getD 0) 0)

/-- The unsigned magnitude parsed by JavaScript `parseInt` when called with
no radix argument: a `0x` or `0X` prefix selects hexadecimal, anything else
is parsed as decimal; `none` models `NaN`. -/
def jsParseIntMag : List Char → Option Nat
  | '0' :: 'x' :: rest => leadingHexDigits rest
  | '0' :: 'X' :: rest => leadingHexDigits rest
  | l => leadingDigits l

/-- Embeds JavaScript `parseInt(s)` with no radix argument, as called in the
`/history` handler: skip leading JavaScript whitespace, then an optional
sign, then the magnitude — hexadecimal after a `0x`/`0X` prefix, decimal
otherwise, in both cases taking the longest digit run; `none` models
`NaN`. -/
def jsParseInt (s : String) : Option Int :=
  match s.toList.dropWhile jsWhitespace with
  | '-' :: rest => (jsParseIntMag rest).map (fun n => -(n : Int))
  | '+' :: rest => (jsParseIntMag rest).map (fun n => (n : Int))
  | l => (jsParseIntMag l).map (fun n => (n : Int))

/-! ## The `src/server.js` variant -/

namespace Memory

/-- Embeds a row of the `downloads` table created by `initDatabase` in
`src/server.js` (columns: id, url, download_url, media_type, filename,
created_at, last_accessed; this variant has no status column). -/
structure Row where
  id : Nat
  url : String
  downloadUrl : String
  mediaType : String
  filename : String
  createdAt : Nat
  lastAccessed : Nat
deriving Repr, DecidableEq

/-- Embeds the object returned by `extractInstagramData` in `src/server.js`:
`{type, downloadUrl, caption, filename}`. -/
structure ExtractResult where
  type : String
  downloadUrl : String
  caption : Option String
  filename : String
deriving Repr, DecidableEq

/-- Embeds `initDatabase` from `src/server.js`, by its final effect on the
module-scoped `dbConnected` flag.  `hasUrl` is whether `DATABASE_URL` is set
(otherwise the function returns at once, leaving the flag `false`); `probeOk`
is whether the `SELECT NOW()` connectivity probe succeeds; `schemaOk` is
whether the `CREATE TABLE IF NOT EXISTS downloads` statement succeeds.  A
failure of either statement lands in the `catch`, which sets
`dbConnected = false`. -/
def initDatabase (hasUrl probeOk schemaOk : Bool) : Bool :=
  if hasUrl = false then false
  else if probeOk = false then false
  else if schemaOk = false then false
  else true

/-- Embeds `getCachedDownload(url)` from `src/server.js`.  Returns the row
served from cache (if any), the table afterwards, and the number of Store
statements issued.  The source guards on `!dbConnected || !pool`, then issues
`SELECT * FROM downloads WHERE url = $1`; on a hit it issues
`UPDATE downloads SET last_accessed = CURRENT_TIMESTAMP WHERE id = $1`
*inside the same try block* and only then returns the row — so when the
UPDATE throws (`touchOk = false`) control reaches the catch, which logs and
returns `null`. -/
def getCachedDownload (dbConnected : Bool) (db : List Row) (url : String)
    (touchOk : Bool) (now : Nat) : Option Row × List Row × Nat :=
  if dbConnected = false then (none, db, 0)
  else
    match db.find? (fun r => r.url == url) with
    | none => (none, db, 1)
    | some r =>
        if touchOk = false then (none, db, 2)
        else
          (some r,
           db.map (fun q => if q.id == r.id then { q with lastAccessed := now } else q),
           2)

/-- Embeds `saveDownload(url, data)` from `src/server.js`:
`INSERT INTO downloads (url, download_url, media_type, filename) VALUES ...
ON CONFLICT (url) DO UPDATE SET download_url = $2, media_type = $3,
filename = $4, last_accessed = CURRENT_TIMESTAMP`.  `created_at` and
`last_accessed` default to `CURRENT_TIMESTAMP` on insert; on conflict
`created_at` is not in the SET list.  `saveOk = false` models the statement
throwing (caught and logged in the source, table unchanged). -/
def saveDownload (dbConnected : Bool) (db : List Row) (url : String)
    (data : ExtractResult) (saveOk : Bool) (now nextId : Nat) : List Row × Nat :=
  if dbConnected = false then (db, 0)
  else if saveOk = false then (db, 1)
  else if db.any (fun r => r.url == url) then
    (db.map (fun r =>
        if r.url == url then
          { r with downloadUrl := data.downloadUrl, mediaType := data.type,
                   filename := data.filename, lastAccessed := now }
        else r),
     1)
  else
    (db ++ [{ id := nextId, url := url, downloadUrl := data.downloadUrl,
              mediaType := data.type, filename := data.filename,
              createdAt := now, lastAccessed := now }],
     1)

/-- Embeds a `<meta>` tag as seen by the scan in `extractInstagramData`
(`src/server.js`): its `property` and `content` attributes.  A missing
attribute (cheerio's `undefined`) is collapsed with the empty string — both
are falsy in every test the scan performs, and a falsy `mediaUrl` never
reaches the output (the function throws instead), so the collapse is
observationally faithful. -/
structure MetaTag where
  property : String
  content : String
deriving Repr, DecidableEq

/-- Embeds one `application/ld+json` block as consulted by the fallback in
`extractInstagramData` (`src/server.js`): `json.video.contentUrl` and
`json.image`, each collapsed to `""` when absent or falsy. -/
structure LdJson where
  videoContentUrl : String
  image : String
deriving Repr, DecidableEq

/-- Embeds the parseable content of the fetched page: the `<meta>` tags in
document order and the JSON-LD script blocks in document order. -/
structure Page where
  metas : List MetaTag
  ldBlocks : List LdJson
deriving Repr, DecidableEq

/-- Embeds one iteration of the `$('meta').each(...)` loop in
`extractInstagramData` (`src/server.js`) on the state
`(mediaUrl, type, caption)`:
`og:video` / `og:video:secure_url` assign `mediaUrl` and set `type = 'video'`
unconditionally; `og:image` assigns `mediaUrl` only when `!mediaUrl`;
`og:description` assigns `caption`. -/
def metaStep (st : String × String × String) (tag : MetaTag) :
    String × String × String :=
  if tag.property == "og:video" || tag.property == "og:video:secure_url" then
    (tag.content, "video", st.2.2)
  else if tag.property == "og:image" && st.1 == "" then
    (tag.content, st.2.1, st.2.2)
  else if tag.property == "og:description" then
    (st.1, st.2.1, tag.content)
  else st

/-- The whole meta-tag scan of `extractInstagramData` (`src/server.js`),
starting from `mediaUrl = ''`, `type = 'image'`, `caption = ''`. -/
def metaScan (metas : List MetaTag) : String × String × String :=
  metas.foldl metaStep ("", "image", "")

/-- Embeds one iteration of the JSON-LD fallback loop in
`extractInstagramData` (`src/server.js`) on the state `(mediaUrl, type)`:
a truthy `json.video.contentUrl` assigns `mediaUrl` and `type = 'video'`;
otherwise a truthy `json.image` assigns `mediaUrl` only when `!mediaUrl`.
(The source's inner `try` swallows JSON parse errors; an unparseable block
is modeled as one with both fields empty, which steps to `st` just as the
swallowed exception does.) -/
def ldStep (st : String × String) (j : LdJson) : String × String :=
  if j.videoContentUrl != "" then (j.videoContentUrl, "video")
  else if j.image != "" && st.1 == "" then (j.image, st.2)
  else st

/-- The whole JSON-LD fallback scan of `extractInstagramData`
(`src/server.js`). -/
def ldScan (blocks : List LdJson) (st : String × String) : String × String :=
  blocks.foldl ldStep st

/-- Embeds the tail of `extractInstagramData` (`src/server.js`): with the
final `(mediaUrl, type, caption)` in hand, throw when `mediaUrl` is falsy,
else build the result object (caption truncated to 200 characters when
truthy, else `null`; filename from `Date.now()` and the media type). -/
def finishExtract (mediaUrl ty caption : String) (nowMs : Nat) :
    Except String ExtractResult :=
  if mediaUrl == "" then
    Except.error "Não foi possível extrair a mídia. O post pode ser privado ou não existir."
  else
    Except.ok
      { type := ty, downloadUrl := mediaUrl,
        caption := if caption == "" then none else some (caption.take 200),
        filename := "instagram_" ++ toString nowMs ++ "." ++
          (if ty == "video" then "mp4" else "jpg") }

/-- Embeds the parsing part of `extractInstagramData` (`src/server.js`),
given the already-fetched page: run the meta scan; if it produced no
`mediaUrl`, run the JSON-LD fallback; then finish. -/
def extractInstagramData (page : Page) (nowMs : Nat) : Except String ExtractResult :=
  let s := metaScan page.metas
  if s.1 == "" then
    let s2 := ldScan page.ldBlocks ("", s.2.1)
    finishExtract s2.1 s2.2 s.2.2 nowMs
  else
    finishExtract s.1 s.2.1 s.2.2 nowMs

/-- What a handler in `src/server.js` sends back, together with the table
state it leaves behind and instrumentation counters.  `data` distinguishes a
cache-hit body (built from the stored row) from a fresh-download body (built
from the Extractor result). -/
inductive RespData where
  | fromCache (r : Row)
  | fresh (url : String) (r : ExtractResult)
deriving Repr, DecidableEq

/-- Outcome of one `src/server.js` request: HTTP status, the `success` and
`cached` fields of the JSON body (absent fields are `none`), the body's
`data`/`error` payloads, the `downloads` table afterwards, and counts of
Store statements issued and Extractor invocations performed. -/
structure Outcome where
  status : Nat
  success : Option Bool
  cached : Option Bool
  data : Option RespData
  errorMsg : Option String
  db : List Row
  storeQueries : Nat
  extractorCalls : Nat
deriving Repr, DecidableEq

/-- The shared tail of both `/igdl` handlers in `src/server.js`: invoke the
Extractor; on a throw the enclosing catch answers 500 with the message; on
success `saveDownload` then answer 200 with `cached: false`. -/
def fetchAndSave (dbConnected : Bool) (db : List Row) (url : String)
    (extract : String → Except String ExtractResult) (saveOk : Bool)
    (now nextId q0 : Nat) : Outcome :=
  match extract url with
  | Except.error msg =>
      { status := 500, success := some false, cached := none, data := none,
        errorMsg := some msg, db := db, storeQueries := q0, extractorCalls := 1 }
  | Except.ok result =>
      let sd := saveDownload dbConnected db url result saveOk now nextId
      { status := 200, success := some true, cached := some false,
        data := some (RespData.fresh url result), errorMsg := none,
        db := sd.1, storeQueries := q0 + sd.2, extractorCalls := 1 }

/-- Embeds the `app.post('/igdl')` handler of `src/server.js`.  `url?` is the
`url` field of the JSON body (`none` for absent; an absent or empty url and a
url without either accepted-domain marker take the same 400 branch in the
source).  The cache is consulted only when `!force_refresh && dbConnected`;
a hit answers `cached: true` with the stored row; otherwise the Extractor
runs and the result is saved. -/
def postIgdl (dbConnected : Bool) (db : List Row) (url? : Option String)
    (forceRefresh : Bool) (extract : String → Except String ExtractResult)
    (touchOk saveOk : Bool) (now nextId : Nat) : Outcome :=
  match url? with
  | none =>
      { status := 400, success := some false, cached := none, data := none,
        errorMsg := some "URL inválida. Use um link do Instagram.",
        db := db, storeQueries := 0, extractorCalls := 0 }
  | some url =>
      if (jsIncludes url "instagram.com" || jsIncludes url "instagr.am") = false then
        { status := 400, success := some false, cached := none, data := none,
          errorMsg := some "URL inválida. Use um link do Instagram.",
          db := db, storeQueries := 0, extractorCalls := 0 }
      else if forceRefresh = false && dbConnected = true then
        match getCachedDownload dbConnected db url touchOk now with
        | (some r, db1, q1) =>
            { status := 200, success := some true, cached := some true,
              data := some (RespData.fromCache r), errorMsg := none,
              db := db1, storeQueries := q1, extractorCalls := 0 }
        | (none, db1, q1) =>
            fetchAndSave dbConnected db1 url extract saveOk now nextId q1
      else
        fetchAndSave dbConnected db url extract saveOk now nextId 0

/-- Embeds the `app.get('/igdl')` handler of `src/server.js`.  The source
rejects only an absent (falsy) `url` query parameter with 400; for any
non-empty `url` it proceeds straight to `getCachedDownload` and, on a miss,
to `extractInstagramData` and `saveDownload` — it performs no accepted-domain
validation of its own (the `req.body` assignment before the inlined logic is
dead). -/
def getIgdl (dbConnected : Bool) (db : List Row) (url? : Option String)
    (extract : String → Except String ExtractResult)
    (touchOk saveOk : Bool) (now nextId : Nat) : Outcome :=
  match url? with
  | none =>
      { status := 400, success := none, cached := none, data := none,
        errorMsg := some "Forneça a URL via query param: ?url=...",
        db := db, storeQueries := 0, extractorCalls := 0 }
  | some url =>
      if url == "" then
        { status := 400, success := none, cached := none, data := none,
          errorMsg := some "Forneça a URL via query param: ?url=...",
          db := db, storeQueries := 0, extractorCalls := 0 }
      else
        match getCachedDownload dbConnected db url touchOk now with
        | (some r, db1, q1) =>
            { status := 200, success := some true, cached := some true,
              data := some (RespData.fromCache r), errorMsg := none,
              db := db1, storeQueries := q1, extractorCalls := 0 }
        | (none, db1, q1) =>
            fetchAndSave dbConnected db1 url extract saveOk now nextId q1

/-- One element of the `downloads` array produced by the `/history` handler
of `src/server.js`: the selected columns under their response names. -/
structure HistoryItem where
  url : String
  type : String
  filename : String
  downloadLink : String
  firstDownloaded : Nat
  lastAccessed : Nat
deriving Repr, DecidableEq

/-- The `/history` row mapping of `src/server.js`
(`result.rows.map(row => ({url, type, filename, download_link,
first_downloaded, last_accessed}))`). -/
def rowView (r : Row) : HistoryItem :=
  { url := r.url, type := r.mediaType, filename := r.filename,
    downloadLink := r.downloadUrl, firstDownloaded := r.createdAt,
    lastAccessed := r.lastAccessed }

/-- Insert a row into a list kept in descending `lastAccessed` order. -/
def insertDesc (r : Row) : List Row → List Row
  | [] => [r]
  | q :: qs =>
      if q.lastAccessed ≤ r.lastAccessed then r :: q :: qs
      else q :: insertDesc r qs

/-- Models `ORDER BY last_accessed DESC` of the `/history` query in
`src/server.js`: a permutation of the table sorted by `last_accessed`
descending. -/
def sortDesc : List Row → List Row
  | [] => []
  | r :: rs => insertDesc r (sortDesc rs)

/-- Embeds `const limit = parseInt(req.query.limit) || 10` from the
`/history` handler of `src/server.js`: an absent parameter, a parse to `NaN`,
and a parse to `0` all fall back to `10` (JavaScript `||` on a falsy left
operand); any other parsed value — including a negative one — is kept. -/
def effectiveLimit (limitQ : Option String) : Int :=
  match limitQ with
  | none => 10
  | some s =>
      match jsParseInt s with
      | none => 10
      | some n => if n = 0 then 10 else n

/-- Outcome of one `/history` request in `src/server.js`. -/
structure HistoryOutcome where
  status : Nat
  success : Option Bool
  errorMsg : Option String
  downloads : List HistoryItem
  total : Option Nat
deriving Repr, DecidableEq

/-- Embeds the `app.get('/history')` handler of `src/server.js`: with no
Store it answers 200 with an empty `downloads` list; otherwise it issues
`SELECT ... ORDER BY last_accessed DESC LIMIT $1` with the effective limit.
PostgreSQL rejects a negative LIMIT, which the handler's catch turns into a
500 whose body still carries `downloads: []`. -/
def historyHandler (dbConnected : Bool) (db : List Row)
    (limitQ : Option String) : HistoryOutcome :=
  if dbConnected = false then
    { status := 200, success := some false,
      errorMsg := some "Banco de dados não conectado", downloads := [], total := none }
  else
    let lim := effectiveLimit limitQ
    if lim < 0 then
      { status := 500, success := some false,
        errorMsg := some "LIMIT must not be negative", downloads := [], total := none }
    else
      let rows := (sortDesc db).take lim.toNat
      { status := 200, success := some true, errorMsg := none,
        downloads := rows.map rowView, total := some rows.length }

end Memory

/-! ## The `src/unnamed/part_001` variant -/

namespace Fallback

/-- Embeds a row of the `downloads` table created by `initDB` in
`src/unnamed/part_001` (this variant adds a `status` column with default
`'pending'`). -/
structure Row where
  id : Nat
  url : String
  downloadUrl : String
  mediaType : String
  filename : String
  status : String
  createdAt : Nat
  lastAccessed : Nat
deriving Repr, DecidableEq

/-- Embeds the object returned by `extractInstagramData` in
`src/unnamed/part_001`: `{type, downloadUrl, filename}`. -/
structure Media where
  type : String
  downloadUrl : String
  filename : String
deriving Repr, DecidableEq

/-- Embeds `checkExistingDownload(url)` from `src/unnamed/part_001`:
guards on `!dbConnected || !pool`, issues
`SELECT * FROM downloads WHERE url = $1 AND status = $2` with `'success'`,
and on a hit issues the `last_accessed` touch UPDATE inside the same try —
a throwing UPDATE (`touchOk = false`) reaches the catch and the function
returns `null`. -/
def checkExistingDownload (dbConnected : Bool) (db : List Row) (url : String)
    (touchOk : Bool) (now : Nat) : Option Row × List Row :=
  if dbConnected = false then (none, db)
  else
    match db.find? (fun r => r.url == url && r.status == "success") with
    | none => (none, db)
    | some r =>
        if touchOk = false then (none, db)
        else
          (some r,
           db.map (fun q => if q.id == r.id then { q with lastAccessed := now } else q))

/-- Embeds `saveDownload(url, data)` from `src/unnamed/part_001`:
`INSERT INTO downloads (url, download_url, media_type, filename, status)
VALUES ($1..$5) ON CONFLICT (url) DO UPDATE SET download_url = $2,
media_type = $3, filename = $4, status = $5,
last_accessed = CURRENT_TIMESTAMP`, always invoked with status `'success'`.
`created_at` defaults to `CURRENT_TIMESTAMP` on insert and is absent from
the conflict SET list. -/
def saveDownload (dbConnected : Bool) (db : List Row) (url : String)
    (data : Media) (now nextId : Nat) : List Row :=
  if dbConnected = false then db
  else if db.any (fun r => r.url == url) then
    db.map (fun r =>
      if r.url == url then
        { r with downloadUrl := data.downloadUrl, mediaType := data.type,
                 filename := data.filename, status := "success",
                 lastAccessed := now }
      else r)
  else
    db ++ [{ id := nextId, url := url, downloadUrl := data.downloadUrl,
             mediaType := data.type, filename := data.filename,
             status := "success", createdAt := now, lastAccessed := now }]

end Fallback

/-! ## The `src/unnamed/part_000` variant -/

namespace Rich

/-- Embeds a row of the `downloads` table as used by `src/unnamed/part_000`
(the variant with `metadata` and `status` columns).  The `metadata` JSON blob
is modeled as an opaque string. -/
structure DRow where
  id : Nat
  url : String
  downloadUrl : String
  mediaType : String
  filename : String
  metadata : String
  status : String
  createdAt : Nat
  lastAccessed : Nat
deriving Repr, DecidableEq

/-- Embeds a row of the `sessions` table (`src/unnamed/part_000`): the upsert
key `session_key` plus `user_id`, the JSON `context` (opaque string),
`last_message`, and `updated_at`. -/
structure SRow where
  sessionKey : String
  userId : String
  context : String
  lastMessage : String
  updatedAt : Nat
deriving Repr, DecidableEq

/-- Embeds a row of the append-only `audit_logs` table
(`src/unnamed/part_000`): action, entity type, optional entity id, actor key,
and the JSON details blob (modeled as the url it carries in the cache-hit
call, an opaque string in general). -/
structure ARow where
  action : String
  entityType : String
  entityId : Option Nat
  userKey : String
  details : String
deriving Repr, DecidableEq

/-- The persistent state of the `src/unnamed/part_000` variant: its three
tables. -/
structure DB where
  downloads : List DRow
  sessions : List SRow
  auditLogs : List ARow
deriving Repr, DecidableEq

/-- Embeds the object returned by `extractInstagramData` in
`src/unnamed/part_000`: `{type, downloadUrl, filename}`. -/
structure Media where
  type : String
  downloadUrl : String
  filename : String
deriving Repr, DecidableEq

/-- Embeds `logAction(action, entityType, entityId, userKey, details)` from
`src/unnamed/part_000`: with a pool, append one `audit_logs` row.  Returns
the state and the Store statements issued (as an ordered trace). -/
def logAction (hasPool : Bool) (db : DB) (action entityType : String)
    (entityId : Option Nat) (userKey details : String) : DB × List String :=
  if hasPool = false then (db, [])
  else
    ({ db with auditLogs := db.auditLogs ++
        [{ action := action, entityType := entityType, entityId := entityId,
           userKey := userKey, details := details }] },
     ["insert_audit"])

/-- Embeds `saveSession(sessionKey, userId, context, lastMessage)` from
`src/unnamed/part_000`: upsert on `session_key`; on conflict the SET list
updates `context`, `last_message` and `updated_at` (not `user_id`). -/
def saveSession (hasPool : Bool) (db : DB) (sessionKey userId context lastMessage : String)
    (now : Nat) : DB × List String :=
  if hasPool = false then (db, [])
  else if db.sessions.any (fun s => s.sessionKey == sessionKey) then
    ({ db with sessions := db.sessions.map (fun s =>
        if s.sessionKey == sessionKey then
          { s with context := context, lastMessage := lastMessage, updatedAt := now }
        else s) },
     ["upsert_session"])
  else
    ({ db with sessions := db.sessions ++
        [{ sessionKey := sessionKey, userId := userId, context := context,
           lastMessage := lastMessage, updatedAt := now }] },
     ["upsert_session"])

/-- Embeds `checkExistingDownload(url)` from `src/unnamed/part_000`: guards
on `!pool`, selects by `url` and `status = 'success'`; on a hit it issues the
`last_accessed` touch UPDATE and then `logAction('cache_hit', 'download',
row.id, 'system', {url})` before returning the row.  A throwing UPDATE
(`touchOk = false`) reaches the catch: `null` is returned and `logAction` is
never reached.  `logAction` swallows its own errors (`logOk = false` leaves
the audit table unchanged but the INSERT was still issued). -/
def checkExistingDownload (hasPool : Bool) (db : DB) (url : String)
    (touchOk logOk : Bool) (now : Nat) : Option DRow × DB × List String :=
  if hasPool = false then (none, db, [])
  else
    match db.downloads.find? (fun r => r.url == url && r.status == "success") with
    | none => (none, db, ["select_download"])
    | some r =>
        if touchOk = false then (none, db, ["select_download", "touch_download"])
        else
          let db1 := { db with downloads := db.downloads.map (fun q =>
            if q.id == r.id then { q with lastAccessed := now } else q) }
          let db2 := if logOk then (logAction hasPool db1 "cache_hit" "download"
            (some r.id) "system" url).1 else db1
          (some r, db2, ["select_download", "touch_download", "insert_audit"])

/-- Embeds `saveDownload(url, data, metadata)` from `src/unnamed/part_000`:
upsert on `url` with status `'success'` and the metadata blob; on conflict
the SET list refreshes everything but `created_at`; afterwards
`logAction('download_saved', ...)` appends an audit row. -/
def saveDownload (hasPool : Bool) (db : DB) (url : String) (data : Media)
    (metadata : String) (now nextId : Nat) : DB × List String :=
  if hasPool = false then (db, [])
  else
    let db1 :=
      if db.downloads.any (fun r => r.url == url) then
        { db with downloads := db.downloads.map (fun r =>
            if r.url == url then
              { r with downloadUrl := data.downloadUrl, mediaType := data.type,
                       filename := data.filename, metadata := metadata,
                       status := "success", lastAccessed := now }
            else r) }
      else
        { db with downloads := db.downloads ++
            [{ id := nextId, url := url, downloadUrl := data.downloadUrl,
               mediaType := data.type, filename := data.filename,
               metadata := metadata, status := "success",
               createdAt := now, lastAccessed := now }] }
    let la := logAction hasPool db1 "download_saved" "download" none "system" url
    (la.1, ["upsert_download"] ++ la.2)

/-- Outcome of one `POST /igdl` request in `src/unnamed/part_000`: status,
the body's `cached` flag, the served row or fresh result, the state left
behind, the ordered trace of Store statements, and the Extractor invocation
count. -/
structure Outcome where
  status : Nat
  cached : Option Bool
  dataRow : Option DRow
  freshData : Option Media
  errorMsg : Option String
  db : DB
  ops : List String
  extractorCalls : Nat
deriving Repr, DecidableEq

/-- Embeds the `app.post('/igdl')` handler of `src/unnamed/part_000`.
Destructures `{url, user_key = 'default', force_refresh = false,
session_key}`; rejects with 400 unless `url?.includes('instagram.com')`;
then, when `session_key` is truthy, upserts the session *before* the cache
is consulted; then, unless `force_refresh`, consults
`checkExistingDownload`, answering `cached: true` on a hit; otherwise
extracts and saves.  The session context `{last_action: 'download'}` is
modeled as the opaque string `"last_action:download"`, the saved metadata
`{user_key, session_key}` as `userKey` joined with the session key. -/
def postIgdl (hasPool : Bool) (db : DB) (url? : Option String) (userKey : String)
    (forceRefresh : Bool) (sessionKey? : Option String)
    (extract : String → Except String Media)
    (touchOk logOk : Bool) (now nextId : Nat) : Outcome :=
  match url? with
  | none =>
      { status := 400, cached := none, dataRow := none, freshData := none,
        errorMsg := some "URL inválida", db := db, ops := [], extractorCalls := 0 }
  | some url =>
      if jsIncludes url "instagram.com" = false then
        { status := 400, cached := none, dataRow := none, freshData := none,
          errorMsg := some "URL inválida", db := db, ops := [], extractorCalls := 0 }
      else
        let sess :=
          match sessionKey? with
          | some sk =>
              if sk == "" then (db, ([] : List String))
              else saveSession hasPool db sk userKey "last_action:download" url now
          | none => (db, [])
        let afterCache :=
          if forceRefresh = false then
            checkExistingDownload hasPool sess.1 url touchOk logOk now
          else (none, sess.1, [])
        match afterCache with
        | (some r, db2, ops2) =>
            { status := 200, cached := some true, dataRow := some r,
              freshData := none, errorMsg := none, db := db2,
              ops := sess.2 ++ ops2, extractorCalls := 0 }
        | (none, db2, ops2) =>
            match extract url with
            | Except.error msg =>
                { status := 500, cached := none, dataRow := none,
                  freshData := none, errorMsg := some msg, db := db2,
                  ops := sess.2 ++ ops2, extractorCalls := 1 }
            | Except.ok result =>
                let sv := saveDownload hasPool db2 url result
                  (userKey ++ "|" ++ (match sessionKey? with
                    | some sk => sk
                    | none => "")) now nextId
                { status := 200, cached := some false, dataRow := none,
                  freshData := some result, errorMsg := none, db := sv.1,
                  ops := sess.2 ++ ops2 ++ sv.2, extractorCalls := 1 }

end Rich

/-! ## Claims -/

/-- C1: the claim says every resolve request (POST and GET `/igdl`) whose url
lacks an accepted-domain marker returns 400 with no Store query and no
Extractor fetch.  The POST handler does validate, but the GET handler of
`src/server.js` rejects only an absent url: for a present url without any
accepted-domain marker it issues the Store SELECT, invokes the Extractor
(an outbound fetch to the arbitrary url) and saves the result — evaluating
the GET route at `?url=https://example.com/x` against an available, empty
Store and a succeeding Extractor yields a 200 with two Store statements and
one Extractor invocation, never a 400. -/
theorem C1_get_igdl_fetches_without_domain_validation :
    (Memory.getIgdl true [] (some "https://example.com/x")
        (fun _ => Except.ok { type := "video", downloadUrl := "v", caption := none,
                              filename := "f" }) true true 5 1).status = 200 ∧
    (Memory.getIgdl true [] (some "https://example.com/x")
        (fun _ => Except.ok { type := "video", downloadUrl := "v", caption := none,
                              filename := "f" }) true true 5 1).storeQueries = 2 ∧
    (Memory.getIgdl true [] (some "https://example.com/x")
        (fun _ => Except.ok { type := "video", downloadUrl := "v", caption := none,
                              filename := "f" }) true true 5 1).extractorCalls = 1 ∧
    jsIncludes "https://example.com/x" "instagram.com" = false ∧
    jsIncludes "https://example.com/x" "instagr.am" = false := by
  refine ⟨?_, ?_, ?_, ?_, ?_⟩ <;> decide

/-- C2: on a POST `/igdl` with `force_refresh` false, the Store available,
and a record found by URL (with the per-call Store statements succeeding),
the response is 200 with `cached: true` carrying the stored record, and the
Extractor is not invoked. -/
theorem C2_cache_hit_serves_stored_record (db : List Memory.Row) (url : String)
    (r : Memory.Row) (extract : String → Except String Memory.ExtractResult)
    (saveOk : Bool) (now nextId : Nat)
    (hv : (jsIncludes url "instagram.com" || jsIncludes url "instagr.am") = true)
    (hfind : db.find? (fun q => q.url == url) = some r) :
    (Memory.postIgdl true db (some url) false extract true saveOk now nextId).status = 200 ∧
    (Memory.postIgdl true db (some url) false extract true saveOk now nextId).cached = some true ∧
    (Memory.postIgdl true db (some url) false extract true saveOk now nextId).data =
      some (Memory.RespData.fromCache r) ∧
    (Memory.postIgdl true db (some url) false extract true saveOk now nextId).extractorCalls = 0 := by
  simp [Memory.postIgdl, Memory.getCachedDownload, hv, hfind]

/-- C2 witness: a concrete cache hit. -/
theorem C2_cache_hit_witness :
    (Memory.postIgdl true [⟨1, "https://instagram.com/p/A", "d", "image", "f", 3, 9⟩]
        (some "https://instagram.com/p/A") false (fun _ => Except.error "net") true true
        5 2).cached = some true :=
  (C2_cache_hit_serves_stored_record
    [⟨1, "https://instagram.com/p/A", "d", "image", "f", 3, 9⟩]
    "https://instagram.com/p/A" ⟨1, "https://instagram.com/p/A", "d", "image", "f", 3, 9⟩
    (fun _ => Except.error "net") true 5 2 (by decide) (by decide)).2.1

/-- C3 counterexample: the claim says a failing `lastAccessedAt` touch on a
cache hit is swallowed without changing the outcome (`cached: true`, no
Extractor call).  In `src/server.js` the touch UPDATE sits inside the same
try block as the SELECT, so its failure makes `getCachedDownload` return
`null`: at a concrete state holding the requested record, with the touch
failing, the call invokes the Extractor and answers `cached: false`. -/
theorem C3_touch_failure_changes_outcome :
    (Memory.postIgdl true [⟨1, "https://instagram.com/p/A", "d", "image", "f", 3, 9⟩]
        (some "https://instagram.com/p/A") false
        (fun _ => Except.ok { type := "video", downloadUrl := "v", caption := none,
                              filename := "g" }) false true 5 2).cached = some false ∧
    (Memory.postIgdl true [⟨1, "https://instagram.com/p/A", "d", "image", "f", 3, 9⟩]
        (some "https://instagram.com/p/A") false
        (fun _ => Except.ok { type := "video", downloadUrl := "v", caption := none,
                              filename := "g" }) false true 5 2).extractorCalls = 1 := by
  refine ⟨?_, ?_⟩ <;> decide

/-- C3 amended: a failure of the touch UPDATE on a cache hit is swallowed in
the sense that no error reaches the response, but it does change the
outcome: the lookup reports a miss, the Extractor is invoked, and on
extraction success the call answers 200 with `cached: false`. -/
theorem C3_touch_failure_swallowed_as_miss (db : List Memory.Row) (url : String)
    (r : Memory.Row) (extract : String → Except String Memory.ExtractResult)
    (res : Memory.ExtractResult) (saveOk : Bool) (now nextId : Nat)
    (hv : (jsIncludes url "instagram.com" || jsIncludes url "instagr.am") = true)
    (hfind : db.find? (fun q => q.url == url) = some r)
    (hex : extract url = Except.ok res) :
    (Memory.postIgdl true db (some url) false extract false saveOk now nextId).status = 200 ∧
    (Memory.postIgdl true db (some url) false extract false saveOk now nextId).cached = some false ∧
    (Memory.postIgdl true db (some url) false extract false saveOk now nextId).errorMsg = none ∧
    (Memory.postIgdl true db (some url) false extract false saveOk now nextId).extractorCalls = 1 := by
  simp [Memory.postIgdl, Memory.getCachedDownload, Memory.fetchAndSave, hv, hfind, hex]

/-- C3 witness: the amended behavior at a concrete state. -/
theorem C3_touch_failure_witness :
    (Memory.postIgdl true [⟨1, "https://instagram.com/p/A", "d", "image", "f", 3, 9⟩]
        (some "https://instagram.com/p/A") false
        (fun _ => Except.ok { type := "video", downloadUrl := "w", caption := none,
                              filename := "h" }) false true 6 2).cached = some false :=
  (C3_touch_failure_swallowed_as_miss
    [⟨1, "https://instagram.com/p/A", "d", "image", "f", 3, 9⟩]
    "https://instagram.com/p/A" ⟨1, "https://instagram.com/p/A", "d", "image", "f", 3, 9⟩
    (fun _ => Except.ok { type := "video", downloadUrl := "w", caption := none,
                          filename := "h" })
    { type := "video", downloadUrl := "w", caption := none, filename := "h" }
    true 6 2 (by decide) (by decide) rfl).2.1

/-- C6: the `dbConnected` flag ends up `true` only when a connection string
is configured and both the connectivity probe and the schema-creation
statement succeed; with the flag `false` (no connection string, failed
probe), POST `/igdl` issues no Store statement at all, and on Extractor
success answers `cached: false`. -/
theorem C6_store_unavailable_resolve_degrades :
    (∀ hasUrl probeOk schemaOk,
        Memory.initDatabase hasUrl probeOk schemaOk = (hasUrl && probeOk && schemaOk)) ∧
    (∀ db url? fr extract tOk sOk now nextId,
        (Memory.postIgdl false db url? fr extract tOk sOk now nextId).storeQueries = 0) ∧
    (∀ db url fr (extract : String → Except String Memory.ExtractResult) tOk sOk now
        nextId res,
        (jsIncludes url "instagram.com" || jsIncludes url "instagr.am") = true →
        extract url = Except.ok res →
        (Memory.postIgdl false db (some url) fr extract tOk sOk now nextId).cached =
            some false ∧
        (Memory.postIgdl false db (some url) fr extract tOk sOk now nextId).status = 200) := by
  refine ⟨by decide, ?_, ?_⟩
  · intro db url? fr extract tOk sOk now nextId
    cases url? with
    | none => rfl
    | some url =>
        rcases hex : extract url with m | r <;>
          by_cases hv : (jsIncludes url "instagram.com" || jsIncludes url "instagr.am") = true <;>
          simp [Memory.postIgdl, Memory.fetchAndSave, Memory.saveDownload, hex, hv]
  · intro db url fr extract tOk sOk now nextId res hv hex
    simp [Memory.postIgdl, Memory.fetchAndSave, Memory.saveDownload, hv, hex]

/-- C6 witness: with the Store unavailable, a concrete successful resolve is
`cached: false` and issued no Store statement. -/
theorem C6_store_unavailable_witness :
    (Memory.postIgdl false [] (some "https://instagram.com/p/B") false
        (fun _ => Except.ok { type := "image", downloadUrl := "i", caption := none,
                              filename := "f" }) true true 4 1).cached = some false :=
  (C6_store_unavailable_resolve_degrades.2.2 [] "https://instagram.com/p/B" false
    (fun _ => Except.ok { type := "image", downloadUrl := "i", caption := none,
                          filename := "f" }) true true 4 1
    { type := "image", downloadUrl := "i", caption := none, filename := "f" }
    (by decide) rfl).1

/-- C7: on any POST `/igdl` call that does invoke the Extractor and where the
Extractor fails, the response is a 500 envelope carrying the Extractor's
message, and the `downloads` table is left exactly as it was — no row is
created or updated. -/
theorem C7_extractor_failure_no_store_write (dbc : Bool) (db : List Memory.Row)
    (url : String) (fr : Bool) (extract : String → Except String Memory.ExtractResult)
    (tOk sOk : Bool) (now nextId : Nat) (msg : String)
    (hcall : (Memory.postIgdl dbc db (some url) fr extract tOk sOk now nextId).extractorCalls = 1)
    (herr : extract url = Except.error msg) :
    (Memory.postIgdl dbc db (some url) fr extract tOk sOk now nextId).status = 500 ∧
    (Memory.postIgdl dbc db (some url) fr extract tOk sOk now nextId).success = some false ∧
    (Memory.postIgdl dbc db (some url) fr extract tOk sOk now nextId).errorMsg = some msg ∧
    (Memory.postIgdl dbc db (some url) fr extract tOk sOk now nextId).db = db := by
  by_cases hv : (jsIncludes url "instagram.com" || jsIncludes url "instagr.am") = true <;>
    cases dbc <;> cases fr <;> cases tOk <;>
    rcases hfind : db.find? (fun q => q.url == url) with _ | s <;>
    simp only [Memory.postIgdl, Memory.getCachedDownload, Memory.fetchAndSave,
      Memory.saveDownload, hv, hfind, herr, Bool.false_and, Bool.and_false,
      Bool.and_self, Bool.true_and, Bool.and_true,
      Bool.false_or, Bool.or_false, if_true, if_false, Bool.false_eq_true,
      Bool.true_eq_false, ite_true, ite_false, decide_eq_true_eq] at hcall ⊢ <;>
    simp_all

/-- C7 witness: a concrete failing extraction leaves the table untouched and
answers 500 with the message. -/
theorem C7_extractor_failure_witness :
    (Memory.postIgdl true [⟨1, "https://instagram.com/p/A", "d", "image", "f", 3, 9⟩]
        (some "https://instagram.com/p/Priv") false (fun _ => Except.error "Erro na extração: boom")
        true true 5 2).db = [⟨1, "https://instagram.com/p/A", "d", "image", "f", 3, 9⟩] :=
  (C7_extractor_failure_no_store_write true
    [⟨1, "https://instagram.com/p/A", "d", "image", "f", 3, 9⟩]
    "https://instagram.com/p/Priv" false (fun _ => Except.error "Erro na extração: boom")
    true true 5 2 "Erro na extração: boom" (by decide) rfl).2.2.2

/-- Mapping an upsert-style update over rows none of which match the key
leaves the table unchanged. -/
theorem upsert_map_skips_unmatched (url : String) (g : Fallback.Row → Fallback.Row)
    (db : List Fallback.Row) (h : ∀ r ∈ db, (r.url == url) = false) :
    db.map (fun r => if r.url == url then g r else r) = db := by
  induction db with
  | nil => rfl
  | cons a l ih =>
      simp only [List.map_cons, h a (List.mem_cons_self a l), Bool.false_eq_true,
        if_false, List.cons.injEq, true_and]
      exact ih fun r hr => h r (List.mem_cons_of_mem a hr)

/-- Filtering by the key of a table with no matching row yields nothing. -/
theorem filter_none_of_no_match (url : String) (db : List Fallback.Row)
    (h : ∀ r ∈ db, (r.url == url) = false) :
    db.filter (fun r => r.url == url) = [] := by
  induction db with
  | nil => rfl
  | cons a l ih =>
      simp only [List.filter_cons, h a (List.mem_cons_self a l), Bool.false_eq_true,
        if_false]
      exact ih fun r hr => h r (List.mem_cons_of_mem a hr)

/-- C4: the cache lookup of the status-bearing variants
(`checkExistingDownload`) serves a record as a hit only when its `status` is
`'success'` (and its `url` is the requested one) — records with status
`'pending'` or `'failed'` are never served. -/
theorem C4_cache_hit_only_success_status (dbc : Bool) (db : List Fallback.Row)
    (url : String) (tOk : Bool) (now : Nat) (r : Fallback.Row)
    (db2 : List Fallback.Row)
    (h : Fallback.checkExistingDownload dbc db url tOk now = (some r, db2)) :
    r.status = "success" ∧ r.url = url := by
  unfold Fallback.checkExistingDownload at h
  cases dbc with
  | false => simp at h
  | true =>
      rcases hfind : db.find? (fun q => q.url == url && q.status == "success")
        with _ | s
      · rw [hfind] at h; simp at h
      · rw [hfind] at h
        cases tOk with
        | false => simp at h
        | true =>
            simp only [Bool.true_eq_false, if_false, Prod.mk.injEq,
              Option.some.injEq] at h
            have hp := List.find?_some hfind
            rw [← h.1]
            simp only [Bool.and_eq_true, beq_iff_eq] at hp
            exact ⟨hp.2, hp.1⟩

/-- C4 witness: a concrete hit carries status `'success'`. -/
theorem C4_cache_hit_witness :
    (⟨7, "https://instagram.com/p/D", "d", "video", "f", "success", 2, 4⟩ :
        Fallback.Row).status = "success" ∧
    (⟨7, "https://instagram.com/p/D", "d", "video", "f", "success", 2, 4⟩ :
        Fallback.Row).url = "https://instagram.com/p/D" :=
  C4_cache_hit_only_success_status true
    [⟨7, "https://instagram.com/p/D", "d", "video", "f", "success", 2, 4⟩]
    "https://instagram.com/p/D" true 9
    ⟨7, "https://instagram.com/p/D", "d", "video", "f", "success", 2, 4⟩
    [⟨7, "https://instagram.com/p/D", "d", "video", "f", "success", 2, 9⟩]
    (by decide)

/-- C5: starting from a table with no row for the URL, upserting it twice
leaves exactly one row for that URL, whose mutable fields (`download_url`,
`media_type`, `filename`, `status`, `last_accessed`) come from the second
upsert while `created_at` keeps its value from the first insertion. -/
theorem C5_upsert_overwrites_but_keeps_createdAt (db : List Fallback.Row)
    (url : String) (d1 d2 : Fallback.Media) (t1 t2 id1 id2 : Nat)
    (hfresh : ∀ r ∈ db, (r.url == url) = false) :
    (Fallback.saveDownload true (Fallback.saveDownload true db url d1 t1 id1)
        url d2 t2 id2).filter (fun r => r.url == url) =
      [{ id := id1, url := url, downloadUrl := d2.downloadUrl,
         mediaType := d2.type, filename := d2.filename, status := "success",
         createdAt := t1, lastAccessed := t2 }] := by
  have hany : db.any (fun r => r.url == url) = false := by
    rw [Bool.eq_false_iff]
    intro hc
    rcases List.any_eq_true.mp hc with ⟨r, hr, hp⟩
    rw [hfresh r hr] at hp
    exact Bool.false_ne_true hp
  have hmap : ∀ (g : Fallback.Row → Fallback.Row),
      db.map (fun r => if r.url == url then g r else r) = db :=
    fun g => upsert_map_skips_unmatched url g db hfresh
  have hnil : db.filter (fun r => r.url == url) = [] :=
    filter_none_of_no_match url db hfresh
  simp [Fallback.saveDownload, hany, List.any_append, hmap, List.filter_append, hnil]
  intro a ha
  have hne : ¬ a.url = url := by simpa using hfresh a ha
  rw [if_neg hne]
  exact hne

/-- C5 witness: two concrete upserts of the same URL. -/
theorem C5_upsert_witness :
    (Fallback.saveDownload true
        (Fallback.saveDownload true [] "https://instagram.com/p/C"
          ⟨"image", "u1", "f1"⟩ 3 1)
        "https://instagram.com/p/C" ⟨"video", "u2", "f2"⟩ 9 5).filter
      (fun r => r.url == "https://instagram.com/p/C") =
      [⟨1, "https://instagram.com/p/C", "u2", "video", "f2", "success", 3, 9⟩] :=
  C5_upsert_overwrites_but_keeps_createdAt [] "https://instagram.com/p/C"
    ⟨"image", "u1", "f1"⟩ ⟨"video", "u2", "f2"⟩ 3 9 1 5 (by simp)

/-- Membership in a descending insertion. -/
theorem mem_insertDesc (r x : Memory.Row) (l : List Memory.Row)
    (h : x ∈ Memory.insertDesc r l) : x = r ∨ x ∈ l := by
  induction l with
  | nil =>
      simp only [Memory.insertDesc, List.mem_singleton] at h
      exact Or.inl h
  | cons q qs ih =>
      rw [Memory.insertDesc] at h
      by_cases hc : q.lastAccessed ≤ r.lastAccessed
      · rw [if_pos hc] at h
        rcases List.mem_cons.mp h with h | h
        · exact Or.inl h
        · exact Or.inr h
      · rw [if_neg hc] at h
        rcases List.mem_cons.mp h with h | h
        · exact Or.inr (h ▸ List.mem_cons_self q qs)
        · rcases ih h with h | h
          · exact Or.inl h
          · exact Or.inr (List.mem_cons_of_mem q h)

/-- Descending insertion preserves descending order. -/
theorem pairwise_insertDesc (r : Memory.Row) (l : List Memory.Row)
    (h : l.Pairwise (fun a b => b.lastAccessed ≤ a.lastAccessed)) :
    (Memory.insertDesc r l).Pairwise (fun a b => b.lastAccessed ≤ a.lastAccessed) := by
  induction l with
  | nil => simp [Memory.insertDesc]
  | cons q qs ih =>
      rw [Memory.insertDesc]
      rcases List.pairwise_cons.mp h with ⟨hq, hqs⟩
      by_cases hc : q.lastAccessed ≤ r.lastAccessed
      · rw [if_pos hc]
        refine List.pairwise_cons.mpr ⟨?_, h⟩
        intro x hx
        rcases List.mem_cons.mp hx with hx | hx
        · exact hx ▸ hc
        · exact Nat.le_trans (hq x hx) hc
      · rw [if_neg hc]
        refine List.pairwise_cons.mpr ⟨?_, ih hqs⟩
        intro x hx
        rcases mem_insertDesc r x qs hx with hx | hx
        · exact hx ▸ Nat.le_of_lt (Nat.lt_of_not_le hc)
        · exact hq x hx

/-- The history sort produces a list in descending `lastAccessed` order. -/
theorem pairwise_sortDesc (l : List Memory.Row) :
    (Memory.sortDesc l).Pairwise (fun a b => b.lastAccessed ≤ a.lastAccessed) := by
  induction l with
  | nil => simp [Memory.sortDesc]
  | cons r rs ih => exact pairwise_insertDesc r (Memory.sortDesc rs) ih

/-- The `parseInt` model follows the radix-less JavaScript rules: a
`0x`/`0X` prefix selects hexadecimal (also after a sign), parsing takes the
longest digit run, JavaScript whitespace is skipped, and a bare prefix or a
non-numeric string is `NaN` — so a hex `limit` reaches the handler as its
hex value, not as the zero fallback. -/
theorem jsParseInt_radix_rules :
    jsParseInt "0x10" = some 16 ∧ jsParseInt "0X1f" = some 31 ∧
    jsParseInt " -0x10" = some (-16) ∧ jsParseInt "12abc" = some 12 ∧
    jsParseInt "0" = some 0 ∧ jsParseInt "\t 42" = some 42 ∧
    jsParseInt "0x" = none ∧ jsParseInt "abc" = none ∧
    Memory.effectiveLimit (some "0x10") = 16 := by
  refine ⟨?_, ?_, ?_, ?_, ?_, ?_, ?_, ?_, ?_⟩ <;> decide

/-- C9 counterexample: the claim says `/history` returns at most `limit`
records with `limit` taken from the query parameter.  In `src/server.js` the
limit is computed as `parseInt(req.query.limit) || 10`, so a present
`limit=0` — which parses to `0`, a falsy value — falls back to 10: against a
one-row table, `?limit=0` yields one record, not at most zero. -/
theorem C9_limit_zero_not_respected :
    jsParseInt "0" = some 0 ∧
    Memory.effectiveLimit (some "0") = 10 ∧
    (Memory.historyHandler true [⟨1, "u", "d", "image", "f", 3, 9⟩]
        (some "0")).downloads.length = 1 ∧
    ¬((Memory.historyHandler true [⟨1, "u", "d", "image", "f", 3, 9⟩]
        (some "0")).downloads.length ≤ 0) := by
  refine ⟨?_, ?_, ?_, ?_⟩ <;> decide

/-- C9 amended: `/history` returns at most the *effective* limit of records
— the effective limit being `parseInt` of the query parameter with an
absent, non-numeric, or zero value falling back to 10 — ordered by
`last_accessed` descending, and with the Store unavailable it answers 200
with an empty `downloads` list rather than an error. -/
theorem C9_history_limit_order_degradation :
    (∀ db limitQ, (Memory.historyHandler false db limitQ).downloads = [] ∧
        (Memory.historyHandler false db limitQ).status = 200) ∧
    Memory.effectiveLimit none = 10 ∧
    (∀ db limitQ, 0 ≤ Memory.effectiveLimit limitQ →
        (Memory.historyHandler true db limitQ).downloads.length ≤
            (Memory.effectiveLimit limitQ).toNat ∧
        (Memory.historyHandler true db limitQ).downloads.Pairwise
            (fun a b => b.lastAccessed ≤ a.lastAccessed)) := by
  refine ⟨fun db limitQ => ⟨rfl, rfl⟩, rfl, ?_⟩
  intro db limitQ h
  have hnl : ¬(Memory.effectiveLimit limitQ < 0) := not_lt.mpr h
  simp only [Memory.historyHandler, Bool.true_eq_false, if_false, hnl, if_true, ite_false]
  constructor
  · rw [List.length_map, List.length_take]
    exact Nat.min_le_left _ _
  · rw [List.pairwise_map]
    exact List.Pairwise.sublist (List.take_sublist _ _) (pairwise_sortDesc db)

/-- C9 witness: the amended bound at a concrete table and limit. -/
theorem C9_history_witness :
    (Memory.historyHandler true
        [⟨1, "u", "d", "image", "f", 3, 9⟩, ⟨2, "v", "e", "video", "g", 4, 11⟩]
        (some "1")).downloads.length ≤ 1 :=
  (C9_history_limit_order_degradation.2.2
    [⟨1, "u", "d", "image", "f", 3, 9⟩, ⟨2, "v", "e", "video", "g", 4, 11⟩]
    (some "1") (by decide)).1

/-- A meta tag that is not video-typed leaves `mediaUrl` and `type`
unchanged once a non-empty media URL has been recorded. -/
theorem metaStep_non_video_preserves (st : String × String × String)
    (g : Memory.MetaTag)
    (hg : (g.property == "og:video" || g.property == "og:video:secure_url") = false)
    (hne : st.1 ≠ "") :
    (Memory.metaStep st g).1 = st.1 ∧ (Memory.metaStep st g).2.1 = st.2.1 := by
  have hb : (st.1 == "") = false := beq_eq_false_iff_ne.mpr hne
  simp only [Memory.metaStep, hg, hb, Bool.false_eq_true, if_false, Bool.and_false]
  split
  · exact ⟨rfl, rfl⟩
  · exact ⟨rfl, rfl⟩

/-- The meta scan gives `mediaUrl` and `type` from the *last* video-typed
tag, provided its content is non-empty. -/
theorem metaScan_last_video_wins (metas : List Memory.MetaTag) :
    ∀ (st : String × String × String) (t : Memory.MetaTag),
      (metas.filter (fun g => g.property == "og:video" ||
          g.property == "og:video:secure_url")).getLast? = some t →
      t.content ≠ "" →
      (metas.foldl Memory.metaStep st).1 = t.content ∧
      (metas.foldl Memory.metaStep st).2.1 = "video" := by
  induction metas using List.reverseRecOn with
  | nil => intro st t h _; simp at h
  | append_singleton ms g ih =>
      intro st t hlast hne
      rw [List.foldl_append, List.foldl_cons, List.foldl_nil]
      by_cases hv : (g.property == "og:video" || g.property == "og:video:secure_url") = true
      · rw [List.filter_append] at hlast
        have hfg : (List.filter (fun g' => g'.property == "og:video" ||
            g'.property == "og:video:secure_url") [g]) = [g] := by
          simp [List.filter_cons, hv]
        rw [hfg, List.getLast?_concat] at hlast
        have hgt : g = t := Option.some.inj hlast
        subst hgt
        constructor
        · simp [Memory.metaStep, hv]
        · simp [Memory.metaStep, hv]
      · have hvf : (g.property == "og:video" || g.property == "og:video:secure_url") = false :=
          Bool.eq_false_iff.mpr hv
        rw [List.filter_append] at hlast
        have hfg : (List.filter (fun g' => g'.property == "og:video" ||
            g'.property == "og:video:secure_url") [g]) = [] := by
          simp [List.filter_cons, hvf]
        rw [hfg, List.append_nil] at hlast
        have hrec := ih st t hlast hne
        have hstep := metaStep_non_video_preserves (List.foldl Memory.metaStep st ms) g hvf
          (by rw [hrec.1]; exact hne)
        exact ⟨hstep.1.trans hrec.1, hstep.2.trans hrec.2⟩

/-- C8 counterexample: the claim says the *first* video-typed meta tag
determines `mediaUrl`.  In `extractInstagramData` every video-typed tag
overwrites `mediaUrl`, so for a page with two `og:video` tags, `v1` then
`v2`, the result is `v2`, not the first tag's `v1`. -/
theorem C8_first_video_does_not_determine :
    Memory.extractInstagramData ⟨[⟨"og:video", "v1"⟩, ⟨"og:video", "v2"⟩], []⟩ 0 =
      Except.ok { type := "video", downloadUrl := "v2", caption := none,
                  filename := "instagram_0.mp4" } ∧
    ("v2" : String) ≠ "v1" :=
  ⟨rfl, by decide⟩

/-- C8 amended: the *last* video-typed meta tag (with non-empty content)
determines `mediaUrl` and forces `mediaType = 'video'`; an image-typed tag
sets `mediaUrl` only when no media URL has been recorded yet; and when the
meta scan records no media URL, the JSON-LD fallback is consulted. -/
theorem C8_meta_scan_behavior :
    (∀ metas lds nowMs (t : Memory.MetaTag),
        (metas.filter (fun g => g.property == "og:video" ||
            g.property == "og:video:secure_url")).getLast? = some t →
        t.content ≠ "" →
        ∃ r, Memory.extractInstagramData ⟨metas, lds⟩ nowMs = Except.ok r ∧
          r.downloadUrl = t.content ∧ r.type = "video") ∧
    (∀ (st : String × String × String) (g : Memory.MetaTag),
        g.property = "og:image" →
        Memory.metaStep st g = if st.1 = "" then (g.content, st.2.1, st.2.2) else st) ∧
    (∀ metas lds nowMs, (Memory.metaScan metas).1 = "" →
        Memory.extractInstagramData ⟨metas, lds⟩ nowMs =
          Memory.finishExtract (Memory.ldScan lds ("", (Memory.metaScan metas).2.1)).1
            (Memory.ldScan lds ("", (Memory.metaScan metas).2.1)).2
            (Memory.metaScan metas).2.2 nowMs) := by
  refine ⟨?_, ?_, ?_⟩
  · intro metas lds nowMs t hlast hne
    have hb := metaScan_last_video_wins metas ("", "image", "") t hlast hne
    have hs1 : (Memory.metaScan metas).1 = t.content := hb.1
    have hs2 : (Memory.metaScan metas).2.1 = "video" := hb.2
    have hbe : ((Memory.metaScan metas).1 == "") = false := by
      rw [hs1]; exact beq_eq_false_iff_ne.mpr hne
    have hce : (t.content == "") = false := beq_eq_false_iff_ne.mpr hne
    refine ⟨{ type := "video", downloadUrl := t.content,
              caption := if (Memory.metaScan metas).2.2 == "" then none
                else some ((Memory.metaScan metas).2.2.take 200),
              filename := "instagram_" ++ toString nowMs ++ "." ++ "mp4" }, ?_, rfl, rfl⟩
    simp only [Memory.extractInstagramData, Memory.finishExtract, hbe, hs1, hs2, hce,
      Bool.false_eq_true, if_false]
    simp
  · intro st g hp
    by_cases hst : st.1 = ""
    · simp [Memory.metaStep, hp, hst]
    · simp [Memory.metaStep, hp, hst]
  · intro metas lds nowMs h
    simp [Memory.extractInstagramData, h]

/-- C8 witness: the amended description at a concrete two-video-tag page. -/
theorem C8_last_video_witness :
    ∃ r, Memory.extractInstagramData ⟨[⟨"og:video", "v1"⟩, ⟨"og:video", "v2"⟩], []⟩ 3 =
        Except.ok r ∧ r.downloadUrl = "v2" ∧ r.type = "video" :=
  C8_meta_scan_behavior.1 [⟨"og:video", "v1"⟩, ⟨"og:video", "v2"⟩] [] 3
    ⟨"og:video", "v2"⟩ (by decide) (by decide)

/-- The session upsert touches only the `sessions` table, issues exactly one
statement, and afterwards a session row with the given key exists. -/
theorem saveSession_touches_only_sessions (db : Rich.DB) (sk uk c lm : String)
    (now : Nat) :
    (Rich.saveSession true db sk uk c lm now).1.downloads = db.downloads ∧
    (Rich.saveSession true db sk uk c lm now).1.auditLogs = db.auditLogs ∧
    (Rich.saveSession true db sk uk c lm now).2 = ["upsert_session"] ∧
    (Rich.saveSession true db sk uk c lm now).1.sessions.any
      (fun s => s.sessionKey == sk) = true := by
  by_cases h : db.sessions.any (fun s => s.sessionKey == sk) = true
  · simp only [Rich.saveSession, Bool.true_eq_false, if_false, h, if_true]
    refine ⟨trivial, trivial, trivial, ?_⟩
    rw [List.any_map]
    have hcomp : ((fun s => s.sessionKey == sk) ∘
        (fun s => if s.sessionKey == sk then
          { s with context := c, lastMessage := lm, updatedAt := now } else s)) =
        (fun s : Rich.SRow => s.sessionKey == sk) := by
      funext s
      simp only [Function.comp_apply]
      by_cases hs : (s.sessionKey == sk) = true
      · simp [hs]
      · simp [hs]
    rw [hcomp]
    exact h
  · have hf : db.sessions.any (fun s => s.sessionKey == sk) = false :=
      Bool.eq_false_iff.mpr h
    simp only [Rich.saveSession, Bool.true_eq_false, if_false, hf,
      Bool.false_eq_true]
    exact ⟨trivial, trivial, trivial, by simp [List.any_append]⟩

/-- C10: in the rich variant, a cache hit is not read-only on the Store.
With a session key supplied and the record present with status `'success'`,
the `cached: true` response has, in order: upserted the session row (before
the cache was consulted), issued the SELECT and the touch UPDATE, and
inserted an `audit_logs` row with action `'cache_hit'`; the session row for
the supplied key is present afterwards. -/
theorem C10_rich_cache_hit_performs_writes (db : Rich.DB) (url uk sk : String)
    (r : Rich.DRow) (extract : String → Except String Rich.Media)
    (now nextId : Nat)
    (hv : jsIncludes url "instagram.com" = true)
    (hsk : (sk == "") = false)
    (hfind : db.downloads.find?
        (fun q => q.url == url && q.status == "success") = some r) :
    (Rich.postIgdl true db (some url) uk false (some sk) extract true true
        now nextId).cached = some true ∧
    (Rich.postIgdl true db (some url) uk false (some sk) extract true true
        now nextId).ops =
      ["upsert_session", "select_download", "touch_download", "insert_audit"] ∧
    (Rich.postIgdl true db (some url) uk false (some sk) extract true true
        now nextId).db.auditLogs =
      db.auditLogs ++
        [{ action := "cache_hit", entityType := "download", entityId := some r.id,
           userKey := "system", details := url }] ∧
    (Rich.postIgdl true db (some url) uk false (some sk) extract true true
        now nextId).db.sessions.any (fun s => s.sessionKey == sk) = true := by
  obtain ⟨hd, ha, hops, hany⟩ :=
    saveSession_touches_only_sessions db sk uk "last_action:download" url now
  simp only [Rich.postIgdl, Rich.checkExistingDownload, Rich.logAction, hv, hsk,
    Bool.true_eq_false, Bool.false_eq_true, if_false, if_true, hd, hfind, hops,
    hany, ha]
  simp [ha, hany]

/-- C10 witness: a concrete rich-variant cache hit with a session key. -/
theorem C10_rich_witness :
    (Rich.postIgdl true
        ⟨[⟨1, "https://instagram.com/p/A", "d", "image", "f", "m", "success", 3, 9⟩],
         [], []⟩
        (some "https://instagram.com/p/A") "uk" false (some "sk1")
        (fun _ => Except.error "net") true true 5 2).cached = some true :=
  (C10_rich_cache_hit_performs_writes
    ⟨[⟨1, "https://instagram.com/p/A", "d", "image", "f", "m", "success", 3, 9⟩],
     [], []⟩
    "https://instagram.com/p/A" "uk" "sk1"
    ⟨1, "https://instagram.com/p/A", "d", "image", "f", "m", "success", 3, 9⟩
    (fun _ => Except.error "net") 5 2 (by decide) (by decide) (by decide)).1

end IgDl
